import Mathlib

/-!
# Verification of the CSV schema-inference and SQL-safety core

Shallow embedding of the schema-extraction, CSV-analysis and query services
(`schema_extractor.py`, `csv_analyzer.py`, `ollama_service.py`,
`query_service.py`).  Python strings are modelled as lists of Unicode code
points (`PyStr := List Nat`); the character-class predicates (`\w`,
`str.isdigit`, `str.lower`, `str.strip`) are modelled on their ASCII
behaviour, which is what the SQL text and header heuristics of this code base
exercise.  For column-name sanitization, where the behaviour beyond ASCII is
load-bearing, the model additionally covers Python `str.lower`'s full
(one-to-many) case mapping of U+0130 and the `\w` classification of U+0130
and U+0307 — the code points on which sanitization loses idempotence.
-/

/-- A Python string, as its list of code points. -/
abbrev PyStr := List Nat

/-- Code points of a string literal (used to embed the Python literals). -/
def strN (s : String) : PyStr := s.data.map Char.toNat

/-- ASCII model of Python `str.strip`'s whitespace class. -/
def isSpaceC (c : Nat) : Bool := c == 32 || c == 9 || c == 10 || c == 13 || c == 11 || c == 12

/-- ASCII decimal digit (Python `str.isdigit` on ASCII). -/
def isDigitC (c : Nat) : Bool := 48 ≤ c && c ≤ 57

/-- The regex class `\w` used by `re.sub(r'[^\w]', '_', name)` (alphanumeric
or underscore).  Modelled exactly on ASCII and on the two non-ASCII code
points the sanitization theorems evaluate it at: U+0130 (LATIN CAPITAL LETTER
I WITH DOT ABOVE, a Unicode letter, hence a word character) and U+0307
(COMBINING DOT ABOVE, a combining mark, which Python `\w` does **not** match —
the `false` default). -/
def isWordC (c : Nat) : Bool :=
  (48 ≤ c && c ≤ 57) || (65 ≤ c && c ≤ 90) || (97 ≤ c && c ≤ 122) || c == 95 || c == 304

/-- ASCII lower-casing of one code point (Python `str.lower`). -/
def lowerC (c : Nat) : Nat := if 65 ≤ c ∧ c ≤ 90 then c + 32 else c

/-- ASCII upper-casing of one code point (Python `str.upper`). -/
def upperC (c : Nat) : Nat := if 97 ≤ c ∧ c ≤ 122 then c - 32 else c

/-- Python `str.lower` (ASCII model). -/
def pyLower (s : PyStr) : PyStr := s.map lowerC

/-- Python `str.upper` (ASCII model). -/
def pyUpper (s : PyStr) : PyStr := s.map upperC

/-- Python `str.lstrip()` : drop leading whitespace. -/
def pyLstrip (s : PyStr) : PyStr := s.dropWhile isSpaceC

/-- Python `str.rstrip()` : drop trailing whitespace. -/
def pyRstripWS (s : PyStr) : PyStr := (s.reverse.dropWhile isSpaceC).reverse

/-- Python `str.strip()` : drop whitespace at both ends. -/
def pyStrip (s : PyStr) : PyStr := pyRstripWS (pyLstrip s)

/-- Python `str.rstrip(chars)` for a single character `c`. -/
def pyRstripChar (c : Nat) (s : PyStr) : PyStr := (s.reverse.dropWhile (· == c)).reverse

/-- Python `str.isdigit()` (ASCII model): nonempty and all decimal digits. -/
def pyIsdigit (s : PyStr) : Bool := !s.isEmpty && s.all isDigitC

/-- Decimal rendering of a natural number (Python `f"{n}"` for nonnegative ints). -/
def natToStr (n : Nat) : PyStr := (Nat.toDigits 10 n).map Char.toNat

/-! ## `SchemaExtractor._round_varchar_length` (schema_extractor.py:255-268) -/

/-- `_round_varchar_length`: round a VARCHAR length onto the fixed ladder;
lengths above 1000 all map to 2000. -/
def round_varchar_length (length : Nat) : Nat :=
  if length ≤ 50 then 50
  else if length ≤ 100 then 100
  else if length ≤ 255 then 255
  else if length ≤ 500 then 500
  else if length ≤ 1000 then 1000
  else 2000

/-- The fixed VARCHAR length ladder named by the specification. -/
def varcharLadder : List Nat := [50, 100, 255, 500, 1000, 2000]

/-- `str(cell)` of one column cell: a missing value (`NaN`) prints as `"nan"`
under `.astype(str)`. -/
def cellStr : Option PyStr → PyStr
  | none => strN "nan"
  | some v => v

/-- `clean_column.astype(str).str.len().max()` over the full column
(schema_extractor.py:188). -/
def maxLenOfColumn (col : List (Option PyStr)) : Nat :=
  ((col.map cellStr).map List.length).foldl max 0

/-- The declared VARCHAR length of a column (schema_extractor.py:186-189). -/
def declaredVarcharLength (col : List (Option PyStr)) : Nat :=
  round_varchar_length (maxLenOfColumn col)

/-! ## `SchemaExtractor._sanitize_column_name` (schema_extractor.py:270-284) -/

/-- One character of `re.sub(r'[^\w]', '_', name)`. -/
def subWordC (c : Nat) : Nat := if isWordC c then c else 95

/-- The reserved words checked by `_sanitize_column_name`. -/
def sqlKeywords : List PyStr :=
  [strN "select", strN "from", strN "where", strN "table", strN "order", strN "group"]

/-- Python `str.lower` on one code point, as the **full** case mapping (a code
point may lower-case to several).  Exact on ASCII and on U+0130, the single
code point whose unconditional full lowercase mapping expands (to
`i` U+0069 followed by COMBINING DOT ABOVE U+0307, per Unicode SpecialCasing);
the remaining code points, whose mappings are one-to-one and which the
theorems below never reach, are modelled as fixed. -/
def lowerCharFull (c : Nat) : List Nat :=
  if 65 ≤ c ∧ c ≤ 90 then [c + 32]
  else if c = 304 then [105, 775]
  else [c]

/-- Python `str.lower` of a whole string under the full case mapping. -/
def pyLowerFull (s : PyStr) : PyStr := s.flatMap lowerCharFull

/-- `_sanitize_column_name`: replace non-word characters by `_`, lower-case
(full case mapping), prefix `col_` when the result starts with a digit,
suffix `_col` when it is a reserved word.  On the empty string the Python code
evaluates `name[0]` and raises `IndexError`, modelled as `none`. -/
def sanitize_column_name (name : PyStr) : Option PyStr :=
  let n1 := name.map subWordC
  let n2 := pyLowerFull n1
  match n2 with
  | [] => none
  | c :: rest =>
    let n3 := if isDigitC c then strN "col_" ++ (c :: rest) else c :: rest
    some (if n3 ∈ sqlKeywords then n3 ++ strN "_col" else n3)

/-! ## `SchemaExtractor._detect_column_type`, object-dtype arm
(schema_extractor.py:210-234) -/

/-- An exact (not necessarily reduced) fraction with positive denominator:
the value of one numeric cell.  Kept unnormalized so that every operation is
plain integer arithmetic. -/
structure Frac where
  num : Int
  den : Nat
deriving DecidableEq

/-- The fraction `n / 1`. -/
def Frac.ofInt (n : Int) : Frac := ⟨n, 1⟩

/-- Value comparison of two fractions (positive denominators). -/
def Frac.le (a b : Frac) : Bool := a.num * (b.den : Int) ≤ b.num * (a.den : Int)

/-- `c < |a|` for a natural bound `c`. -/
def Frac.absGt (a : Frac) (c : Nat) : Bool := (c : Int) * (a.den : Int) < |a.num|

/-- Is the fraction an integer? -/
def Frac.isInt (a : Frac) : Bool := a.num % (a.den : Int) == 0

/-- Multiply a fraction by `10 ^ e` for a signed exponent. -/
def Frac.scalePow10 (a : Frac) (e : Int) : Frac :=
  match e with
  | .ofNat k => ⟨a.num * ((10 ^ k : Nat) : Int), a.den⟩
  | .negSucc k => ⟨a.num, a.den * 10 ^ (k + 1)⟩

/-- A value produced by `pd.to_numeric` on one cell: a finite number (modelled
exactly as a fraction; the doubles the code manipulates are exact on the
integer magnitudes compared here), an infinity, or `NaN`. -/
inductive PyNum where
  | fin (q : Frac)
  | pinf
  | ninf
  | nan
deriving DecidableEq

/-- `x % 1 == 0` for one parsed value: true exactly for finite integral
values (`inf % 1` and `nan % 1` are `NaN`, which compares unequal to 0). -/
def isIntegralNum : PyNum → Bool
  | .fin q => q.isInt
  | _ => false

/-- Ordering used by `Series.max` on non-`NaN` values. -/
def numLe : PyNum → PyNum → Bool
  | .ninf, _ => true
  | _, .pinf => true
  | .fin a, .fin b => a.le b
  | _, _ => false

/-- `numeric_series.max()`: pandas skips `NaN`; the maximum of an all-`NaN`
(or empty) series is `NaN`. -/
def seriesMax (l : List PyNum) : PyNum :=
  match l.filter (· ≠ PyNum.nan) with
  | [] => .nan
  | x :: xs => xs.foldl (fun a b => if numLe a b then b else a) x

/-- `abs(max_val) > 2147483647` (`abs(NaN) > c` is false, `abs(±inf) > c` true). -/
def absGtBound : PyNum → Bool
  | .fin q => q.absGt 2147483647
  | .pinf => true
  | .ninf => true
  | .nan => false

/-- Leading decimal digits and the rest. -/
def takeDigits (s : PyStr) : PyStr × PyStr := (s.takeWhile isDigitC, s.dropWhile isDigitC)

/-- Numeric value of a digit string. -/
def digitsToNat (ds : PyStr) : Nat := ds.foldl (fun a c => a * 10 + (c - 48)) 0

/-- Exponent suffix `[eE][+-]?digits` applied to a mantissa, ending the string. -/
def parseExpSuffix (m : Frac) (r : PyStr) : Option Frac :=
  match r with
  | [] => some m
  | e :: r2 =>
    if e = 101 ∨ e = 69 then
      let (esgn, r3) : Int × PyStr :=
        match r2 with
        | 43 :: t => (1, t)
        | 45 :: t => (-1, t)
        | t => (1, t)
      let (ed, r4) := takeDigits r3
      if ed.isEmpty ∨ ¬r4.isEmpty then none
      else some (m.scalePow10 (esgn * (digitsToNat ed : Int)))
    else none

/-- `pd.to_numeric` on one string cell: optional sign, decimal literal with
optional fraction and exponent, or an `inf`/`nan` word. -/
def numParse (s0 : PyStr) : Option PyNum :=
  let s := pyStrip s0
  let (sgn, s1) : Int × PyStr :=
    match s with
    | 43 :: r => (1, r)
    | 45 :: r => (-1, r)
    | r => (1, r)
  if pyLower s1 = strN "inf" ∨ pyLower s1 = strN "infinity" then
    some (if sgn = 1 then .pinf else .ninf)
  else if pyLower s1 = strN "nan" then some .nan
  else
    let (ip, r1) := takeDigits s1
    if r1.isEmpty then
      if ip.isEmpty then none else some (.fin (Frac.ofInt (sgn * (digitsToNat ip : Int))))
    else if r1.head? = some 46 then
      let (fp, r3) := takeDigits (r1.tail)
      if ip.isEmpty ∧ fp.isEmpty then none
      else
        let m : Frac :=
          ⟨sgn * ((digitsToNat ip * 10 ^ fp.length + digitsToNat fp : Nat) : Int), 10 ^ fp.length⟩
        (parseExpSuffix m r3).map .fin
    else
      if ip.isEmpty then none
      else (parseExpSuffix (Frac.ofInt (sgn * (digitsToNat ip : Int))) r1).map .fin

/-- Is `c` a date separator (`-` or `/`)? -/
def dtSep (c : Nat) : Bool := c == 45 || c == 47

/-- Modelled from the source: the per-element success condition of
`pd.to_datetime(..., format='mixed')` (schema_extractor.py:216), restricted to
the numeric date layouts this repository's CSV data exercises (`YYYY-MM-DD`,
`D/M/Y` style with a matching separator, optional time suffix, and plain
8-digit `YYYYMMDD`); calendar-validity checking is not modelled. -/
def isDatetimeLike (s0 : PyStr) : Bool :=
  let s := pyStrip s0
  let d1 := s.takeWhile isDigitC
  let r1 := s.dropWhile isDigitC
  match r1 with
  | [] => !s.isEmpty && d1.length == 8
  | sep :: r2 =>
    if dtSep sep then
      let d2 := r2.takeWhile isDigitC
      let r3 := r2.dropWhile isDigitC
      match r3 with
      | [] => false
      | sep2 :: r4 =>
        if sep2 == sep then
          let d3 := r4.takeWhile isDigitC
          let r5 := r4.dropWhile isDigitC
          (d1.length == 4 || d1.length ≤ 2) && !d2.isEmpty && d2.length ≤ 2 &&
            !d3.isEmpty && (d3.length == 4 || d3.length ≤ 2) &&
            (r5.isEmpty || r5.head? == some 32 || r5.head? == some 84)
        else false
    else false

/-- The object-dtype arm of `_detect_column_type`: try datetime parsing on the
first 100 non-null sampled values, then numeric parsing (INTEGER/BIGINT/FLOAT),
else fall back to VARCHAR.  Returns `(pandas_type, sql_type)`. -/
def detect_column_type_object (sample : List (Option PyStr)) : PyStr × PyStr :=
  let vals := (sample.filterMap id).take 100
  if vals.all isDatetimeLike then (strN "datetime64[ns]", strN "DATE")
  else if vals.all (fun v => (numParse v).isSome) then
    let nums := vals.filterMap numParse
    if nums.all isIntegralNum then
      if absGtBound (seriesMax nums) then (strN "int64", strN "BIGINT")
      else (strN "int64", strN "INTEGER")
    else (strN "float64", strN "FLOAT")
  else (strN "object", strN "VARCHAR")

/-! ## Uniqueness flags (schema_extractor.py:184, upload.py:279-281) -/

/-- `clean_column.nunique()`: the number of distinct non-null values. -/
def nuniqueCol (col : List (Option Nat)) : Nat := (col.filterMap id).dedup.length

/-- The number of non-null values of a column. -/
def nonNullCount (col : List (Option Nat)) : Nat := (col.filterMap id).length

/-- `_analyze_columns` line 184: `is_unique = bool(clean_column.nunique() == len(df))`
— distinct non-null count compared with the **total** row count. -/
def analyze_is_unique (col : List (Option Nat)) : Bool :=
  nuniqueCol col == col.length

/-- `get_column_statistics` (upload.py:280): `is_unique = unique_count == non_null_count`. -/
def stats_is_unique (col : List (Option Nat)) : Bool :=
  nuniqueCol col == nonNullCount col

/-! ## Python `str.split` / `str.replace` / `in` on code-point lists -/

/-- Python's substring test `pat in s`. -/
def occursIn (pat : PyStr) : PyStr → Bool
  | [] => pat.isEmpty
  | c :: rest => pat.isPrefixOf (c :: rest) || occursIn pat rest

/-- Worker for `str.split(sep)` with a nonempty separator `s0 :: sep`:
left-to-right, non-overlapping.  The structural fuel is initialised to the
input length, which each step strictly decreases, so the fuel-exhausted arm is
never reached. -/
def splitOnGo (s0 : Nat) (sep : PyStr) : Nat → PyStr → PyStr → List PyStr
  | _, [], cur => [cur.reverse]
  | 0, l, cur => [cur.reverse ++ l]
  | fuel + 1, c :: rest, cur =>
    if (s0 :: sep).isPrefixOf (c :: rest) then
      cur.reverse :: splitOnGo s0 sep fuel (rest.drop sep.length) []
    else
      splitOnGo s0 sep fuel rest (c :: cur)

/-- Python `s.split(sep)` for a nonempty separator (the empty separator raises
in Python and is never used by this code). -/
def pySplit (s : PyStr) (sep : PyStr) : List PyStr :=
  match sep with
  | [] => [s]
  | c :: cs => splitOnGo c cs s.length s []

/-- Python `s.replace(old, new)` for a nonempty `old`. -/
def pyReplace (s old new : PyStr) : PyStr := new.intercalate (pySplit s old)

/-! ## `OllamaService._extract_sql` (ollama_service.py:202-217) -/

/-- `_extract_sql`: cut the content out of a ` ```sql `/` ``` ` code fence,
strip whitespace, and prepend `SELECT ` when the text does not already start
(case-insensitively) with `SELECT`. -/
def extract_sql (response : PyStr) : PyStr :=
  let body :=
    if occursIn (strN "```sql") response then
      (pySplit ((pySplit response (strN "```sql")).getD 1 []) (strN "```")).getD 0 []
    else if occursIn (strN "```") response then
      (pySplit ((pySplit response (strN "```")).getD 1 []) (strN "```")).getD 0 []
    else response
  let sql := pyStrip body
  if (strN "SELECT").isPrefixOf (pyUpper sql) then sql else strN "SELECT " ++ sql

/-! ## `QueryService` (query_service.py) -/

/-- The read-only gate of `_execute_generated_query` (query_service.py:154):
`sql.strip().upper().startswith('SELECT')`. -/
def gateAccepts (sql : PyStr) : Bool := (strN "SELECT").isPrefixOf (pyUpper (pyStrip sql))

/-- `_fix_table_names_in_sql` (query_service.py:188-218): for every actual
table, rewrite the five wrong-plural reference shapes back to the quoted
exact name. -/
def fix_table_names_in_sql (tables : List PyStr) (sql : PyStr) : PyStr :=
  tables.foldl (fun acc t =>
    let wrong := t ++ [115]
    let reps : List (PyStr × PyStr) := [
      ([34] ++ wrong ++ [34], [34] ++ t ++ [34]),
      ([32] ++ wrong ++ [32], [32, 34] ++ t ++ [34, 32]),
      ([32] ++ wrong ++ [59], [32, 34] ++ t ++ [34, 59]),
      (strN "FROM " ++ wrong, strN "FROM \"" ++ t ++ [34]),
      (strN "JOIN " ++ wrong, strN "JOIN \"" ++ t ++ [34])]
    reps.foldl (fun s p => if occursIn p.1 s then pyReplace s p.1 p.2 else s) acc) sql

/-- Outcome of `_execute_generated_query`: either the refusal dictionary
(`executed: false`, "Only SELECT queries are allowed for safety"), or the SQL
text that is sent to the engine after table-name repair. -/
inductive ExecOutcome where
  | rejected
  | executed (sql : PyStr)
deriving DecidableEq

/-- `_execute_generated_query` (query_service.py:151-163) up to the database
round-trip: refuse unless the stripped text starts with `SELECT`, otherwise
execute the repaired SQL. -/
def execute_generated_query (tables : List PyStr) (sql : PyStr) : ExecOutcome :=
  if gateAccepts sql then .executed (fix_table_names_in_sql tables sql) else .rejected

/-- The row-cap step of `query_from_natural_language` (query_service.py:126-127):
`if limit and 'LIMIT' not in generated_sql.upper(): generated_sql =
generated_sql.rstrip(';') + f" LIMIT {limit};"`. -/
def apply_row_cap (limit : Option Nat) (sql : PyStr) : PyStr :=
  match limit with
  | none => sql
  | some n =>
    if n = 0 then sql
    else if occursIn (strN "LIMIT") (pyUpper sql) then sql
    else pyRstripChar 59 sql ++ strN " LIMIT " ++ natToStr n ++ [59]

/-! ## `SchemaExtractor._generate_create_table_sql` (schema_extractor.py:329-372)
and the primary-key resolution of `extract_from_csv` (schema_extractor.py:105-120) -/

/-- One analysed column, as consumed by the DDL generator. -/
structure ColumnInfo where
  name : PyStr
  sql_type : PyStr
  max_length : Option Nat := none
  nullable : Bool := true
deriving DecidableEq

/-- A caller-supplied foreign-key definition. -/
structure ForeignKeyDef where
  column : PyStr
  ref_table : PyStr
  ref_column : PyStr
deriving DecidableEq

/-- Python truthiness of the `primary_key` value: `None` and `""` are falsy. -/
def pkFalsy : Option PyStr → Bool
  | none => true
  | some s => s.isEmpty

/-- The primary-key resolution of `extract_from_csv`: `None` stays `None`
(auto surrogate key), `""` stays `""` (user chose no primary key), a name must
match an analysed column or the request fails. -/
def resolve_primary_key (override : Option PyStr) (columnNames : List PyStr) :
    Except PyStr (Option PyStr) :=
  match override with
  | none => .ok none
  | some s =>
    if s.isEmpty then .ok (some s)
    else if s ∈ columnNames then .ok (some s)
    else .error (strN "Primary key column not found")

/-- `_generate_create_table_sql`: a synthetic `id SERIAL PRIMARY KEY` column is
prepended whenever `primary_key` is falsy (`None` **or** the empty string);
each column definition carries its type, `NOT NULL`, and an inline
`PRIMARY KEY` marker on the named primary-key column; foreign-key clauses
follow. -/
def generate_create_table_sql (table_name : PyStr) (columns : List ColumnInfo)
    (primary_key : Option PyStr) (foreign_keys : List ForeignKeyDef) : PyStr :=
  let base : List PyStr := if pkFalsy primary_key then [strN "id SERIAL PRIMARY KEY"] else []
  let colDefs := columns.map (fun col =>
    let sqlType :=
      if col.sql_type == strN "VARCHAR" && (match col.max_length with | some n => n != 0 | none => false) then
        strN "VARCHAR(" ++ natToStr (col.max_length.getD 0) ++ strN ")"
      else col.sql_type
    let d1 := col.name ++ [32] ++ sqlType
    let d2 := if col.nullable then d1 else d1 ++ strN " NOT NULL"
    if pkFalsy primary_key = false ∧ primary_key = some col.name then
      d2 ++ strN " PRIMARY KEY"
    else d2)
  let fkDefs := foreign_keys.map (fun fk =>
    strN "FOREIGN KEY (" ++ fk.column ++ strN ") REFERENCES " ++ fk.ref_table ++
      [40] ++ fk.ref_column ++ [41])
  strN "CREATE TABLE IF NOT EXISTS " ++ table_name ++ strN " (\n    " ++
    (strN ",\n    ").intercalate (base ++ colDefs ++ fkDefs) ++ strN "\n);"

/-! ## `CSVAnalyzer` (csv_analyzer.py) -/

/-- One-line CSV parser (Python `csv.reader([line])`, default dialect:
delimiter `,`, quote `"`, doubled quotes escape).  State: 0 = at field start,
1 = in an unquoted field, 2 = inside quotes, 3 = just after a quote inside a
quoted field (non-strict: stray characters after a closing quote are kept). -/
def csvGo : PyStr → Nat → PyStr → List PyStr → List PyStr
  | [], _, cur, acc => (cur.reverse :: acc).reverse
  | c :: rest, st, cur, acc =>
    if st = 0 then
      if c = 34 then csvGo rest 2 cur acc
      else if c = 44 then csvGo rest 0 [] (cur.reverse :: acc)
      else csvGo rest 1 (c :: cur) acc
    else if st = 1 then
      if c = 44 then csvGo rest 0 [] (cur.reverse :: acc)
      else csvGo rest 1 (c :: cur) acc
    else if st = 2 then
      if c = 34 then csvGo rest 3 cur acc
      else csvGo rest 2 (c :: cur) acc
    else
      if c = 34 then csvGo rest 2 (34 :: cur) acc
      else if c = 44 then csvGo rest 0 [] (cur.reverse :: acc)
      else csvGo rest 1 (c :: cur) acc

/-- `next(csv.reader([line]))` for a non-blank line. -/
def parseCsvLine (line : PyStr) : List PyStr := csvGo line 0 [] []

/-- The fixed domain-keyword list of `CSVAnalyzer.__init__`. -/
def headerKeywords : List PyStr :=
  [strN "id", strN "name", strN "date", strN "time", strN "patient", strN "study",
   strN "bill", strN "account", strN "number", strN "code", strN "type", strN "status",
   strN "value", strN "amount", strN "total", strN "count", strN "age", strN "gender",
   strN "address"]

/-- `min(100, x)` on exact fractions (the Python code computes the confidence
in floating point; no caller inspects it beyond reporting). -/
def pyMin100 (x : Frac) : Frac := if (Frac.ofInt 100).le x then Frac.ofInt 100 else x

/-- One scored header candidate (`scores` entry of `_detect_header_row`). -/
structure ScoreEntry where
  row : Nat
  score : Int
  confidence : Frac
  reasons : List PyStr
  columnCount : Nat
deriving DecidableEq

/-- Heuristic 1 count: cells containing any domain keyword. -/
def keywordHits (row : List PyStr) : Nat :=
  row.countP (fun col => headerKeywords.any (fun kw => occursIn kw (pyLower col)))

/-- Heuristic 2 count: cells that are not pure numbers once `,`, `.`, `-`
are removed from the trimmed cell. -/
def nonNumericCells (row : List PyStr) : Nat :=
  row.countP (fun col =>
    !pyIsdigit ((pyStrip col).filter (fun c => !(c == 44 || c == 46 || c == 45))))

/-- Heuristic 4 count: cells containing an underscore. -/
def underscoreHits (row : List PyStr) : Nat := row.countP (fun col => occursIn [95] col)

/-- Score one line of `_detect_header_row` (csv_analyzer.py:69-146): `none` for
an ineligible line (blank after trimming, contains NUL — `_csv` raises "line
contains NUL", caught by the per-row handler — or fewer than 2 cells). -/
def scoreLine (lines : List PyStr) (i : Nat) (line : PyStr) : Option ScoreEntry :=
  if (pyStrip line).isEmpty then none
  else if line.contains 0 then none
  else
    let row := parseCsvLine line
    if row.length < 2 then none
    else
      let km := keywordHits row
      let nn := nonNumericCells row
      let uc := underscoreHits row
      let nextRows := ((lines.drop (i + 1)).take 4).filter (fun r => !(pyStrip r).isEmpty)
      let h5ok := !nextRows.any (fun r => r.contains 0)
      let consistent := nextRows.countP (fun r => (parseCsvLine r).length == row.length)
      let h5hit := h5ok && !nextRows.isEmpty && decide (5 * consistent ≥ 4 * nextRows.length)
      let s1 : Int := if 0 < km then 2 * km else 0
      let s2 : Int := if nn = row.length then 3 else 0
      let s3 : Int := if row.all (fun col => !(pyStrip col).isEmpty) then 2 else 0
      let s4 : Int := if 0 < uc then uc else 0
      let s5 : Int := if h5hit then 3 else 0
      let s6 : Int := if i = 0 then -1 else 0
      let score := s1 + s2 + s3 + s4 + s5 + s6
      let reasons :=
        (if 0 < km then [natToStr km ++ strN " header keywords found"] else []) ++
        (if nn = row.length then [strN "All columns are text (not numbers)"] else []) ++
        (if row.all (fun col => !(pyStrip col).isEmpty) then [strN "No empty columns"] else []) ++
        (if 0 < uc then [natToStr uc ++ strN " columns with underscores"] else []) ++
        (if h5hit then
          [strN "Consistent column count with next " ++ natToStr consistent ++ strN " rows"]
         else [])
      some { row := i, score := score, confidence := pyMin100 ⟨score * 100, 15⟩,
             reasons := reasons, columnCount := row.length }

/-- All eligible scored lines, in iteration (row-index) order. -/
def candidateEntries (lines : List PyStr) : List ScoreEntry :=
  lines.enum.filterMap (fun p => scoreLine lines p.1 p.2)

/-- Keep the earlier entry unless a strictly higher score appears. -/
def pickStep (b x : ScoreEntry) : ScoreEntry := if b.score < x.score then x else b

/-- `scores.sort(key=lambda x: x['score'], reverse=True); best = scores[0]`:
Python's sort is stable, so element 0 of the descending sort is the first
entry attaining the maximal score, which this fold computes directly. -/
def selectBest : List ScoreEntry → Option ScoreEntry
  | [] => none
  | e :: es => some (es.foldl pickStep e)

/-- `_detect_header_row` (csv_analyzer.py:60-157): returns
`(row_index, confidence, reasoning)`; with no eligible line, row 0 at 50%
confidence.  (Python computes confidence in floating point; it is modelled as
the exact rational, which no caller of this function inspects further.) -/
def detect_header_row (lines : List PyStr) : Nat × Frac × PyStr :=
  match selectBest (candidateEntries lines) with
  | none => (0, Frac.ofInt 50, strN "No valid rows found, defaulting to row 0")
  | some b =>
    (b.row, b.confidence, strN "Row " ++ natToStr b.row ++ strN ": " ++
      (strN "; ").intercalate b.reasons)

/-- `bytes.decode('utf-8', errors='ignore')`: total on arbitrary byte input;
malformed lead or continuation bytes are skipped.  (Python's maximal-subpart
skipping can drop a different number of bytes on a malformed multi-byte
sequence; every byte list still decodes without failure, which is the property
under study.)  `utf8Step` consumes one scalar: it returns the decoded code
point (or `none` for a malformed byte) and how many extra bytes it used. -/
def utf8Step (b : Nat) (rest : List Nat) : Option Nat × Nat :=
  if b < 128 then (some b, 0)
  else if 194 ≤ b ∧ b ≤ 223 then
    match rest with
    | b2 :: _ =>
      if 128 ≤ b2 ∧ b2 ≤ 191 then (some ((b - 192) * 64 + (b2 - 128)), 1) else (none, 0)
    | [] => (none, 0)
  else if 224 ≤ b ∧ b ≤ 239 then
    match rest with
    | b2 :: b3 :: _ =>
      if ((b = 224 ∧ 160 ≤ b2 ∧ b2 ≤ 191) ∨
          (225 ≤ b ∧ b ≤ 236 ∧ 128 ≤ b2 ∧ b2 ≤ 191) ∨
          (b = 237 ∧ 128 ≤ b2 ∧ b2 ≤ 159) ∨
          (238 ≤ b ∧ 128 ≤ b2 ∧ b2 ≤ 191)) ∧ 128 ≤ b3 ∧ b3 ≤ 191 then
        (some ((b - 224) * 4096 + (b2 - 128) * 64 + (b3 - 128)), 2)
      else (none, 0)
    | _ => (none, 0)
  else if 240 ≤ b ∧ b ≤ 244 then
    match rest with
    | b2 :: b3 :: b4 :: _ =>
      if ((b = 240 ∧ 144 ≤ b2 ∧ b2 ≤ 191) ∨
          (241 ≤ b ∧ b ≤ 243 ∧ 128 ≤ b2 ∧ b2 ≤ 191) ∨
          (b = 244 ∧ 128 ≤ b2 ∧ b2 ≤ 143)) ∧
          128 ≤ b3 ∧ b3 ≤ 191 ∧ 128 ≤ b4 ∧ b4 ≤ 191 then
        (some ((b - 240) * 262144 + (b2 - 128) * 4096 + (b3 - 128) * 64 + (b4 - 128)), 3)
      else (none, 0)
    | _ => (none, 0)
  else (none, 0)

/-- Decode the byte list one (possibly multi-byte) step at a time; the
structural fuel starts at the input length, which every step strictly
decreases, so the fuel-exhausted arm is never reached. -/
def decodeUtf8Go : Nat → List Nat → PyStr
  | _, [] => []
  | 0, _ => []
  | fuel + 1, b :: rest =>
    match utf8Step b rest with
    | (some cp, k) => cp :: decodeUtf8Go fuel (rest.drop k)
    | (none, k) => decodeUtf8Go fuel (rest.drop k)

/-- `bytes.decode('utf-8', errors='ignore')` of a whole byte list. -/
def decodeUtf8Ignore (bs : List Nat) : PyStr := decodeUtf8Go bs.length bs

/-- The structured result of `CSVAnalyzer.analyze_file`. -/
structure AnalyzeResult where
  success : Bool
  preview : List PyStr := []
  total_preview_lines : Nat := 0
  detected_header_row : Nat := 0
  confidence : Frac := Frac.ofInt 0
  detected_skip_rows : List Nat := []
  reasoning : PyStr := []
  error : Option PyStr := none
deriving DecidableEq

/-- `analyze_file` (csv_analyzer.py:21-58): decode with errors ignored, split
into lines, truncate to the preview, detect the header row.  Every step of the
`try` body is total on arbitrary byte input, so the `except` branch that would
produce `{success: false, error}` is never taken. -/
def analyze_file (content : List Nat) (preview_lines : Nat) : AnalyzeResult :=
  let contentStr := decodeUtf8Ignore content
  let lines := (pySplit contentStr [10]).take preview_lines
  let r := detect_header_row lines
  { success := true
    preview := lines
    total_preview_lines := lines.length
    detected_header_row := r.1
    confidence := r.2.1
    detected_skip_rows := if 0 < r.1 then List.range r.1 else []
    reasoning := r.2.2
    error := none }

/-! ## Helper lemmas -/

/-- `occursIn` agrees with the sublist-infix relation. -/
theorem occursIn_eq_true_iff (pat : PyStr) : ∀ s : PyStr, occursIn pat s = true ↔ pat <:+: s := by
  intro s
  induction s with
  | nil =>
    simp only [occursIn, List.isEmpty_iff]
    constructor
    · rintro rfl; exact List.infix_rfl
    · rintro ⟨u, v, huv⟩
      simp only [List.append_eq_nil] at huv
      tauto
  | cons c rest ih =>
    simp only [occursIn, Bool.or_eq_true, List.isPrefixOf_iff_prefix, ih, List.infix_cons_iff]

/-! ## C4 — VARCHAR length ladder -/

/-- The ladder membership and no-truncation-below-2000 facts for
`_round_varchar_length`, stated for a whole column. -/
theorem round_varchar_spec (L : Nat) :
    round_varchar_length L ∈ varcharLadder ∧ (L ≤ 2000 → L ≤ round_varchar_length L) := by
  constructor
  · unfold round_varchar_length varcharLadder
    split_ifs <;> simp
  · intro hL
    unfold round_varchar_length
    split_ifs <;> omega

/-- C4 (counterexample): a column whose longest value has 2001 characters is
declared `VARCHAR(2000)`, strictly shorter than the observed maximum — the
declared length does **not** always dominate the observed maximum. -/
theorem varchar_truncates_beyond_2000 :
    declaredVarcharLength [some (List.replicate 2001 97)] <
      maxLenOfColumn [some (List.replicate 2001 97)] := by
  have h : maxLenOfColumn [some (List.replicate 2001 97)] = 2001 := by
    simp only [maxLenOfColumn, cellStr, List.map_cons, List.map_nil, List.foldl_cons,
      List.foldl_nil, List.length_replicate]
    decide
  unfold declaredVarcharLength
  rw [h]
  decide

/-- C4 (amended): every declared VARCHAR length is on the ladder
{50,100,255,500,1000,2000}, and it is an upper bound for the observed maximum
string length whenever that maximum is at most 2000; observed lengths above
2000 are capped (truncated) to 2000. -/
theorem declared_varchar_ladder_and_upward (col : List (Option PyStr)) :
    declaredVarcharLength col ∈ varcharLadder ∧
      (maxLenOfColumn col ≤ 2000 → maxLenOfColumn col ≤ declaredVarcharLength col) :=
  round_varchar_spec (maxLenOfColumn col)

/-- C4 witness: the amended theorem applied to a column whose longest cell has
137 characters. -/
theorem declared_varchar_witness :
    declaredVarcharLength [some (List.replicate 137 97)] ∈ varcharLadder ∧
      maxLenOfColumn [some (List.replicate 137 97)] ≤ 2000 ∧
      maxLenOfColumn [some (List.replicate 137 97)] ≤
        declaredVarcharLength [some (List.replicate 137 97)] := by
  have h : maxLenOfColumn [some (List.replicate 137 97)] = 137 := by
    simp only [maxLenOfColumn, cellStr, List.map_cons, List.map_nil, List.foldl_cons,
      List.foldl_nil, List.length_replicate]
    decide
  exact ⟨(declared_varchar_ladder_and_upward _).1, by rw [h]; decide,
    (declared_varchar_ladder_and_upward _).2 (by rw [h]; decide)⟩

/-! ## C3 — the `is_unique` flag -/

/-- C3 (counterexample): the column `[1, null]` has one distinct non-null
value and one non-null row, so the claimed rule `distinct == non-null-count`
would mark it unique, but `_analyze_columns` compares against `len(df)` and
reports `false`. -/
theorem analyze_unique_null_counterexample :
    nuniqueCol [some 1, none] = nonNullCount [some 1, none] ∧
      analyze_is_unique [some 1, none] = false := by decide

/-- C3 (amended): in `_analyze_columns` the unique flag is
`distinct-non-null count == total row count`; consequently a column with zero
non-null values is never marked unique as long as the frame has at least one
row (the claimed comparison against the non-null count is what the separate
column-statistics endpoint computes, where an all-null column *is* unique). -/
theorem analyze_unique_iff_total_rows (col : List (Option Nat)) :
    (analyze_is_unique col = true ↔ nuniqueCol col = col.length) ∧
      (nonNullCount col = 0 → 0 < col.length → analyze_is_unique col = false) := by
  constructor
  · simp [analyze_is_unique]
  · intro h0 hl
    have h1 : col.filterMap id = [] := by
      simpa [nonNullCount, List.length_eq_zero] using h0
    simp only [analyze_is_unique, nuniqueCol, h1, List.dedup_nil, List.length_nil,
      beq_eq_false_iff_ne, ne_eq]
    omega

/-- C3 witness: the amended theorem applied to the all-null one-row column,
which is not marked unique. -/
theorem analyze_unique_witness :
    nonNullCount [(none : Option Nat)] = 0 ∧ 0 < ([(none : Option Nat)]).length ∧
      analyze_is_unique [(none : Option Nat)] = false :=
  ⟨by decide, by decide, (analyze_unique_iff_total_rows [none]).2 (by decide) (by decide)⟩

/-! ## C1 — primary-key tri-state -/

/-- C1: with the explicit-empty override (`override_primary_key=""`), the
resolution step keeps the empty sentinel, yet the generated DDL still contains
the synthetic `id SERIAL PRIMARY KEY` column — the code collapses
"explicit empty" into "unspecified" because `if not primary_key:` treats the
empty string as falsy, contradicting its own "User chose: No primary key"
logging and the documented tri-state. -/
theorem explicit_empty_override_still_emits_pk :
    resolve_primary_key (some []) [strN "a"] = .ok (some []) ∧
      occursIn (strN "id SERIAL PRIMARY KEY")
        (generate_create_table_sql (strN "t")
          [⟨strN "a", strN "INTEGER", none, true⟩] (some []) []) = true :=
  ⟨rfl, by decide⟩

/-! ## C10 — totality of `analyze_file` -/

/-- C10: `analyze_file` is total over arbitrary byte input: the bytes decode
with errors ignored (`decodeUtf8Ignore` is a total function), the result is
always the structured success record, and the `{success: false, error}`
branch of the `except` handler is never reached. -/
theorem analyze_file_total (content : List Nat) (preview : Nat) :
    (analyze_file content preview).success = true ∧
      (analyze_file content preview).error = none ∧
      (analyze_file content preview).preview =
        (pySplit (decodeUtf8Ignore content) [10]).take preview :=
  ⟨rfl, rfl, rfl⟩

/-! ## C2 — the SQL safety gate -/

/-- C2 (counterexample): the raw generator text `DROP TABLE users` contains no
`SELECT` token in any case, yet the normalization path does not reject it:
`_extract_sql` prepends `SELECT ` and the resulting text passes the
read-only gate of `_execute_generated_query` and is sent to the engine. -/
theorem no_select_text_is_not_rejected :
    occursIn (strN "SELECT") (strN "DROP TABLE users") = false ∧
      occursIn (strN "SELECT") (pyUpper (strN "DROP TABLE users")) = false ∧
      extract_sql (strN "DROP TABLE users") = strN "SELECT DROP TABLE users" ∧
      execute_generated_query [] (extract_sql (strN "DROP TABLE users")) =
        .executed (strN "SELECT DROP TABLE users") := by decide

/-- C2 (amended): the hard gate sits in `_execute_generated_query`, not in
extraction: any SQL string whose stripped text does not start
(case-insensitively) with `SELECT` is classified as rejected and is never
executed; raw generator text without a `SELECT` token is instead repaired by
prepending `SELECT `, so it reaches the engine. -/
theorem gate_rejects_non_select (tables : List PyStr) (sql : PyStr)
    (h : gateAccepts sql = false) :
    execute_generated_query tables sql = .rejected := by
  simp [execute_generated_query, h]

/-- C2 witness: the gate rejecting a concrete non-SELECT statement. -/
theorem gate_rejects_witness :
    gateAccepts (strN "DELETE FROM t") = false ∧
      execute_generated_query [] (strN "DELETE FROM t") = .rejected :=
  ⟨by decide, gate_rejects_non_select [] (strN "DELETE FROM t") (by decide)⟩

/-! ## C7 — the row cap -/

/-- C7: for a truthy limit `n`, a generated SQL string with no `LIMIT`
substring (case-insensitive) becomes the string with all trailing semicolons
removed and ` LIMIT n;` appended — hence it contains `LIMIT n` — while a
string already containing `LIMIT` is returned unchanged. -/
theorem row_cap_spec (sql : PyStr) (n : Nat) (hn : n ≠ 0) :
    (occursIn (strN "LIMIT") (pyUpper sql) = false →
      apply_row_cap (some n) sql =
        pyRstripChar 59 sql ++ strN " LIMIT " ++ natToStr n ++ [59] ∧
      occursIn (strN "LIMIT " ++ natToStr n) (apply_row_cap (some n) sql) = true) ∧
    (occursIn (strN "LIMIT") (pyUpper sql) = true → apply_row_cap (some n) sql = sql) := by
  constructor
  · intro h
    have key : apply_row_cap (some n) sql =
        pyRstripChar 59 sql ++ strN " LIMIT " ++ natToStr n ++ [59] := by
      simp [apply_row_cap, hn, h]
    refine ⟨key, ?_⟩
    rw [key, occursIn_eq_true_iff]
    refine ⟨pyRstripChar 59 sql ++ [32], [59], ?_⟩
    have hsp : strN " LIMIT " = [32] ++ strN "LIMIT " := by decide
    rw [hsp]
    simp
  · intro h
    simp [apply_row_cap, hn, h]

/-- C7 witness: the row cap applied with the default limit 100 to a SQL
string without a `LIMIT` clause produces text containing `LIMIT 100`. -/
theorem row_cap_witness :
    occursIn (strN "LIMIT") (pyUpper (strN "SELECT * FROM t;")) = false ∧
      occursIn (strN "LIMIT 100") (apply_row_cap (some 100) (strN "SELECT * FROM t;")) = true := by
  refine ⟨by decide, ?_⟩
  have h := ((row_cap_spec (strN "SELECT * FROM t;") 100 (by decide)).1 (by decide)).2
  have e : strN "LIMIT 100" = strN "LIMIT " ++ natToStr 100 := by decide
  rw [e]
  exact h

/-! ## C5 — INTEGER / BIGINT / FLOAT classification -/

/-- C5 (amended): for a sampled column whose datetime parse fails and whose
values all parse as integral numbers, the classifier returns BIGINT exactly
when the absolute value of the **maximum** value exceeds 2147483647 (`abs` is
applied to the maximum, not to each value), and INTEGER otherwise. -/
theorem detect_integral_by_abs_of_max (sample : List (Option PyStr))
    (hdt : ((sample.filterMap id).take 100).all isDatetimeLike = false)
    (hint : ((sample.filterMap id).take 100).all
        (fun v => isIntegralNum ((numParse v).getD .nan)) = true) :
    detect_column_type_object sample =
      if absGtBound (seriesMax (((sample.filterMap id).take 100).filterMap numParse)) = true then
        (strN "int64", strN "BIGINT")
      else (strN "int64", strN "INTEGER") := by
  have hsome : ((sample.filterMap id).take 100).all (fun v => (numParse v).isSome) = true := by
    rw [List.all_eq_true] at hint ⊢
    intro v hv'
    have h := hint v hv'
    cases hnp : numParse v with
    | none => rw [hnp] at h; simp [isIntegralNum] at h
    | some x => simp
  have hall : (((sample.filterMap id).take 100).filterMap numParse).all isIntegralNum = true := by
    rw [List.all_eq_true] at hint ⊢
    intro x hx
    obtain ⟨v, hv', hnp⟩ := List.mem_filterMap.mp hx
    have h := hint v hv'
    rw [hnp] at h
    simpa using h
  simp only [detect_column_type_object, hdt, hsome, hall, Bool.false_eq_true, if_false, if_true]

/-- C5 witness: the column `["1","2","3000000000"]` is classified BIGINT
(its maximum, 3000000000, exceeds the 32-bit signed bound). -/
theorem detect_bigint_witness :
    ((([some (strN "1"), some (strN "2"), some (strN "3000000000")] :
        List (Option PyStr)).filterMap id).take 100).all isDatetimeLike = false ∧
    detect_column_type_object [some (strN "1"), some (strN "2"), some (strN "3000000000")] =
      (strN "int64", strN "BIGINT") := by
  refine ⟨by decide, ?_⟩
  rw [detect_integral_by_abs_of_max _ (by decide) (by decide)]
  decide

/-- C5 (counterexample): in `["1","-3000000000"]` every value is integral and
the maximum **absolute magnitude** (3000000000, from the negative value)
exceeds 2147483647, yet the classifier returns INTEGER, because the code
computes `abs(numeric_series.max())` = `abs(1)` — refuting the claim's
"maximum absolute magnitude among the values" rule. -/
theorem negative_magnitude_not_bigint :
    numParse (strN "-3000000000") = some (.fin ⟨-3000000000, 1⟩) ∧
    absGtBound (.fin ⟨-3000000000, 1⟩) = true ∧
    ((([some (strN "1"), some (strN "-3000000000")] :
        List (Option PyStr)).filterMap id).take 100).all
      (fun v => isIntegralNum ((numParse v).getD .nan)) = true ∧
    detect_column_type_object [some (strN "1"), some (strN "-3000000000")] =
      (strN "int64", strN "INTEGER") := by decide

/-! ## C8 — sanitization idempotence -/

/-- A code point that sanitization leaves unchanged: a word character that is
neither an upper-case ASCII letter nor U+0130 (the code points the lower-case
pass rewrites). -/
def isSanC (c : Nat) : Bool := isWordC c && !(65 ≤ c && c ≤ 90) && c != 304

/-- On an ASCII code point, the substitute-then-lower-case pass produces only
sanitization-fixed characters.  (This is where ASCII matters: on U+0130 the
pass produces U+0307, which is not a word character and is not fixed.) -/
theorem isSanC_norm_ascii (c : Nat) (hc : c < 128) :
    ∀ d ∈ lowerCharFull (subWordC c), isSanC d = true := by
  intro d hd
  unfold lowerCharFull subWordC isWordC at hd
  unfold isSanC isWordC
  split_ifs at hd <;> simp_all <;> omega

/-- A map whose function fixes every element of the list is the identity. -/
theorem map_id_of_fixed {f : Nat → Nat} {l : PyStr} (h : ∀ c ∈ l, f c = c) : l.map f = l := by
  induction l with
  | nil => rfl
  | cons c r ih =>
    simp only [List.map_cons]
    rw [h c (by simp), ih (fun x hx => h x (by simp [hx]))]

/-- A flat-map sending every element of the list to its singleton is the
identity. -/
theorem flatMap_id_of_fixed {f : Nat → List Nat} {l : PyStr}
    (h : ∀ c ∈ l, f c = [c]) : l.flatMap f = l := by
  induction l with
  | nil => rfl
  | cons c r ih =>
    rw [List.flatMap_cons, h c (by simp), ih (fun x hx => h x (by simp [hx]))]
    rfl

/-- `re.sub(r'[^\w]', '_', ·)` fixes sanitization-fixed characters. -/
theorem subWordC_fixed {c : Nat} (h : isSanC c = true) : subWordC c = c := by
  unfold isSanC at h
  unfold subWordC
  simp only [Bool.and_eq_true] at h
  rw [if_pos h.1.1]

/-- The full-case-mapping lower-casing fixes sanitization-fixed characters. -/
theorem lowerCharFull_fixed {c : Nat} (h : isSanC c = true) : lowerCharFull c = [c] := by
  unfold isSanC at h
  simp only [Bool.and_eq_true, Bool.not_eq_true', Bool.and_eq_false_iff, bne_iff_ne,
    ne_eq] at h
  have hA : ¬(65 ≤ c ∧ c ≤ 90) := by
    intro hc
    rcases h.1.2 with h2 | h2 <;> simp_all
  unfold lowerCharFull
  rw [if_neg hA, if_neg h.2]

/-- A name ending in `_col` is never one of the six reserved words. -/
theorem not_keyword_of_col_suffix (x : PyStr) : (x ++ strN "_col") ∉ sqlKeywords := by
  intro hmem
  have hrev : (x ++ strN "_col").reverse.head? = some 108 := by
    rw [List.reverse_append]
    rfl
  have hnone : ∀ k ∈ sqlKeywords, k.reverse.head? ≠ some 108 := by decide
  exact hnone _ hmem hrev

/-- Sanitization is the identity on a nonempty name made of fixed characters
whose head is not a digit and which is not a reserved word. -/
theorem sanitize_of_fixed {c' : Nat} {r' : PyStr}
    (hsan : ∀ x ∈ c' :: r', isSanC x = true)
    (hd : isDigitC c' = false)
    (hk : (c' :: r') ∉ sqlKeywords) :
    sanitize_column_name (c' :: r') = some (c' :: r') := by
  simp only [sanitize_column_name]
  have h1 : (c' :: r').map subWordC = c' :: r' :=
    map_id_of_fixed (fun x hx => subWordC_fixed (hsan x hx))
  have h2 : pyLowerFull (c' :: r') = c' :: r' := by
    unfold pyLowerFull
    exact flatMap_id_of_fixed (fun x hx => lowerCharFull_fixed (hsan x hx))
  rw [h1, h2]
  simp [hd, hk]

/-- C8 (counterexample): sanitization is **not** idempotent on every input
string.  For the one-character name U+0130 (LATIN CAPITAL LETTER I WITH DOT
ABOVE): `re.sub(r'[^\w]','_',·)` keeps it (it is a word character), and
`str.lower()` expands it to `i` (U+0069) followed by COMBINING DOT ABOVE
(U+0307); on re-sanitization the combining mark is not `\w` and becomes `_`,
so `sanitize(sanitize(name))` is `i_`, not `i` U+0307. -/
theorem sanitize_unicode_not_idempotent :
    sanitize_column_name [304] = some [105, 775] ∧
      sanitize_column_name [105, 775] = some [105, 95] ∧
      sanitize_column_name [105, 775] ≠ some [105, 775] := by decide

/-- C8 (amended): column-name sanitization is idempotent on ASCII input —
whenever sanitization of an all-ASCII `s` succeeds with result `t` (it fails
only on the empty string, where Python raises `IndexError`), re-sanitizing `t`
returns `t` unchanged.  The restriction is forced by the U+0130
counterexample above. -/
theorem sanitize_idempotent_ascii (s t : PyStr) (hs : ∀ c ∈ s, c < 128)
    (h : sanitize_column_name s = some t) :
    sanitize_column_name t = some t := by
  simp only [sanitize_column_name] at h
  cases hn2 : pyLowerFull (s.map subWordC) with
  | nil => rw [hn2] at h; exact absurd h (by simp)
  | cons c rest =>
    rw [hn2] at h
    simp only [Option.some.injEq] at h
    have hsan2 : ∀ x ∈ c :: rest, isSanC x = true := by
      rw [← hn2]
      intro x hx
      unfold pyLowerFull at hx
      obtain ⟨y, hy, hxy⟩ := List.mem_flatMap.mp hx
      obtain ⟨z, hz, rfl⟩ := List.mem_map.mp hy
      exact isSanC_norm_ascii z (hs z hz) x hxy
    have hsuf : ∀ x ∈ strN "_col", isSanC x = true := by decide
    have hpre : ∀ x ∈ strN "col_", isSanC x = true := by decide
    by_cases hd : isDigitC c = true
    · rw [if_pos hd] at h
      by_cases hk : (strN "col_" ++ (c :: rest)) ∈ sqlKeywords
      · rw [if_pos hk] at h
        have hcons : (strN "col_" ++ (c :: rest)) ++ strN "_col" =
            99 :: ((strN "ol_" ++ (c :: rest)) ++ strN "_col") := rfl
        rw [← h, hcons]
        apply sanitize_of_fixed
        · intro x hx
          rw [← hcons] at hx
          rcases List.mem_append.mp hx with hx1 | hx2
          · rcases List.mem_append.mp hx1 with hx3 | hx4
            · exact hpre x hx3
            · exact hsan2 x hx4
          · exact hsuf x hx2
        · decide
        · rw [← hcons]
          exact not_keyword_of_col_suffix _
      · rw [if_neg hk] at h
        have hcons : strN "col_" ++ (c :: rest) = 99 :: (strN "ol_" ++ (c :: rest)) := rfl
        rw [← h, hcons]
        apply sanitize_of_fixed
        · intro x hx
          rw [← hcons] at hx
          rcases List.mem_append.mp hx with hx1 | hx2
          · exact hpre x hx1
          · exact hsan2 x hx2
        · decide
        · rw [← hcons]; exact hk
    · rw [if_neg hd] at h
      have hdc : isDigitC c = false := by simpa using hd
      by_cases hk : (c :: rest) ∈ sqlKeywords
      · rw [if_pos hk] at h
        have hcons : (c :: rest) ++ strN "_col" = c :: (rest ++ strN "_col") := rfl
        rw [← h, hcons]
        apply sanitize_of_fixed
        · intro x hx
          rw [← hcons] at hx
          rcases List.mem_append.mp hx with hx1 | hx2
          · exact hsan2 x hx1
          · exact hsuf x hx2
        · exact hdc
        · rw [← hcons]
          exact not_keyword_of_col_suffix _
      · rw [if_neg hk] at h
        rw [← h]
        exact sanitize_of_fixed hsan2 hdc hk

/-- C8 witness: `"Patient ID"` is all ASCII, sanitizing it gives
`patient_id`, and re-sanitizing `patient_id` is a no-op. -/
theorem sanitize_idempotent_ascii_witness :
    (∀ c ∈ strN "Patient ID", c < 128) ∧
      sanitize_column_name (strN "Patient ID") = some (strN "patient_id") ∧
      sanitize_column_name (strN "patient_id") = some (strN "patient_id") :=
  ⟨by decide, by decide,
    sanitize_idempotent_ascii (strN "Patient ID") (strN "patient_id") (by decide) (by decide)⟩

/-! ## C9 — extracted SQL always passes the SELECT gate -/
/-- The head surviving a `dropWhile` fails the predicate. -/
theorem dropWhile_head?_not (p : Nat → Bool) (l : PyStr) {c : Nat}
    (h : (l.dropWhile p).head? = some c) : p c = false := by
  induction l with
  | nil => simp at h
  | cons a r ih =>
    rw [List.dropWhile_cons] at h
    split at h
    · exact ih h
    · simp only [List.head?_cons, Option.some.injEq] at h
      subst h
      simp_all

/-- A stripped string never starts with whitespace. -/
theorem pyStrip_head?_not {x : PyStr} {c : Nat}
    (h : (pyStrip x).head? = some c) : isSpaceC c = false := by
  unfold pyStrip pyRstripWS at h
  have hpre : ((pyLstrip x).reverse.dropWhile isSpaceC).reverse <+: pyLstrip x := by
    have := List.rdropWhile_prefix (p := isSpaceC) (l := pyLstrip x)
    simpa [List.rdropWhile] using this
  obtain ⟨t, ht⟩ := hpre
  cases hc : ((pyLstrip x).reverse.dropWhile isSpaceC).reverse with
  | nil => rw [hc] at h; simp at h
  | cons a r =>
    rw [hc] at h ht
    simp only [List.head?_cons, Option.some.injEq] at h
    have hx : (pyLstrip x).head? = some a := by
      rw [← ht]; simp
    exact h ▸ dropWhile_head?_not isSpaceC x hx

/-- A stripped string never ends with whitespace. -/
theorem pyStrip_getLast?_not {x : PyStr} {c : Nat}
    (h : (pyStrip x).getLast? = some c) : isSpaceC c = false := by
  unfold pyStrip pyRstripWS at h
  rw [List.getLast?_reverse] at h
  exact dropWhile_head?_not isSpaceC (pyLstrip x).reverse h

/-- Right-stripping is the identity when the last character is not whitespace. -/
theorem rstrip_fixed_of_last {l : PyStr} {c : Nat}
    (h : l.getLast? = some c) (hc : isSpaceC c = false) : pyRstripWS l = l := by
  unfold pyRstripWS
  cases hr : l.reverse with
  | nil => simp_all
  | cons a r =>
    have ha : a = c := by
      have h2 := List.head?_reverse l
      rw [hr, h] at h2
      simpa using h2
    subst ha
    rw [List.dropWhile_cons, if_neg (by simp [hc])]
    rw [← hr, List.reverse_reverse]

/-- Stripping is the identity on a string with no whitespace at either end. -/
theorem pyStrip_fixed {x : PyStr}
    (hh : ∀ c, x.head? = some c → isSpaceC c = false)
    (hl : ∀ c, x.getLast? = some c → isSpaceC c = false) : pyStrip x = x := by
  have h1 : pyLstrip x = x := by
    cases x with
    | nil => rfl
    | cons a r =>
      unfold pyLstrip
      rw [List.dropWhile_cons, if_neg (by simp [hh a rfl])]
  unfold pyStrip
  rw [h1]
  cases hx : x.getLast? with
  | none =>
    have : x = [] := by simpa using hx
    subst this; rfl
  | some c => exact rstrip_fixed_of_last hx (hl c hx)

/-- `str.strip()` is idempotent. -/
theorem pyStrip_idem (x : PyStr) : pyStrip (pyStrip x) = pyStrip x :=
  pyStrip_fixed (fun _ h => pyStrip_head?_not h) (fun _ h => pyStrip_getLast?_not h)

/-- A stripped string whose upper-casing starts with `SELECT` passes the gate. -/
theorem gateAccepts_of_stripped_prefix {q : PyStr}
    (hq : pyStrip q = q)
    (hp : (strN "SELECT").isPrefixOf (pyUpper q) = true) : gateAccepts q = true := by
  unfold gateAccepts
  rw [hq]
  exact hp

/-- C9: for every generator response, the text `_extract_sql` returns starts
(case-insensitively) with `SELECT` — the code-fence content is stripped and,
when the leading keyword is missing, `SELECT ` is prepended — so the extracted
query always satisfies the `startswith('SELECT')` execution check of
`_execute_generated_query`. -/
theorem extract_sql_passes_gate (response : PyStr) :
    gateAccepts (extract_sql response) = true := by
  simp only [extract_sql]
  set q : PyStr := pyStrip (if occursIn (strN "```sql") response = true then
      (pySplit ((pySplit response (strN "```sql")).getD 1 []) (strN "```")).getD 0 []
    else if occursIn (strN "```") response = true then
      (pySplit ((pySplit response (strN "```")).getD 1 []) (strN "```")).getD 0 []
    else response) with hqdef
  have hq : pyStrip q = q := by rw [hqdef]; exact pyStrip_idem _
  by_cases hp : (strN "SELECT").isPrefixOf (pyUpper q) = true
  · rw [if_pos hp]
    exact gateAccepts_of_stripped_prefix hq hp
  · rw [if_neg hp]
    cases hcq : q with
    | nil =>
      show gateAccepts (strN "SELECT " ++ []) = true
      decide
    | cons a q' =>
      have hfix : pyStrip (strN "SELECT " ++ q) = strN "SELECT " ++ q := by
        apply pyStrip_fixed
        · intro c hc
          have h83 : (strN "SELECT " ++ q).head? = some 83 := rfl
          have hc2 : c = 83 := by
            have h3 := h83.symm.trans hc
            simpa using h3.symm
          subst hc2; decide
        · intro c hc
          rw [List.getLast?_append] at hc
          cases hqL : q.getLast? with
          | none =>
            rw [hcq] at hqL
            simp at hqL
          | some d =>
            rw [hqL] at hc
            simp only [Option.or_some, Option.some.injEq] at hc
            subst hc
            exact pyStrip_getLast?_not (x := q) (by rw [hq, hqL])
      unfold gateAccepts
      rw [← hcq, hfix]
      have hup : pyUpper (strN "SELECT " ++ q) = strN "SELECT " ++ pyUpper q := by
        unfold pyUpper
        rw [List.map_append]
        congr 1
      rw [hup]
      rw [List.isPrefixOf_iff_prefix]
      refine ⟨[32] ++ pyUpper q, ?_⟩
      rw [(by decide : strN "SELECT " = strN "SELECT" ++ [32])]
      simp

/-! ## C6 — header-row selection -/
/-- The strict-improvement fold decomposes its input around its result: the
result occurs in the list, everything strictly before it scores strictly
lower, and everything scores at most the result. -/
theorem foldl_pick : ∀ (es : List ScoreEntry) (e : ScoreEntry),
    ∃ l1 l2, (e :: es) = l1 ++ (es.foldl pickStep e) :: l2 ∧
      (∀ x ∈ l1, x.score < (es.foldl pickStep e).score) ∧
      (∀ x ∈ e :: es, x.score ≤ (es.foldl pickStep e).score) := by
  intro es
  induction es with
  | nil =>
    intro e
    exact ⟨[], [], rfl, by simp, by simp⟩
  | cons x es' ih =>
    intro e
    simp only [List.foldl_cons]
    by_cases hlt : e.score < x.score
    · have hstep : pickStep e x = x := by simp [pickStep, hlt]
      rw [hstep]
      obtain ⟨l1, l2, hdec, hstrict, hall⟩ := ih x
      refine ⟨e :: l1, l2, by rw [List.cons_append, ← hdec], ?_, ?_⟩
      · intro y hy
        rcases List.mem_cons.mp hy with rfl | hy'
        · have hx : x.score ≤ (es'.foldl pickStep x).score := hall x (by simp)
          omega
        · exact hstrict y hy'
      · intro y hy
        rcases List.mem_cons.mp hy with rfl | hy'
        · have hx : x.score ≤ (es'.foldl pickStep x).score := hall x (by simp)
          omega
        · exact hall y (by rw [hdec] at hy' ⊢; exact hy')
    · have hstep : pickStep e x = e := by simp [pickStep, hlt]
      rw [hstep]
      obtain ⟨l1, l2, hdec, hstrict, hall⟩ := ih e
      cases l1 with
      | nil =>
        simp only [List.nil_append] at hdec
        have hbe : es'.foldl pickStep e = e := by
          have := hdec
          injection this with h1 h2
          exact h1.symm
        have hl2 : l2 = es' := by
          injection hdec with h1 h2
          exact h2.symm
        refine ⟨[], x :: es', by simp [hbe], by simp, ?_⟩
        intro y hy
        rcases List.mem_cons.mp hy with rfl | hy'
        · simp [hbe]
        rcases List.mem_cons.mp hy' with rfl | hy''
        · rw [hbe]; omega
        · exact hall y (by simp [hy''])
      | cons e0 l1' =>
        have he0 : e0 = e := by
          have := hdec
          rw [List.cons_append] at this
          injection this with h1 h2
          exact h1.symm
        subst he0
        have hes' : es' = l1' ++ (es'.foldl pickStep e0) :: l2 := by
          have h2 := hdec
          simp only [List.cons_append, List.cons.injEq, true_and] at h2
          exact h2
        refine ⟨e0 :: x :: l1', l2, ?_, ?_, ?_⟩
        · rw [List.cons_append, List.cons_append, ← hes']
        · intro y hy
          have hbound : e0.score < (es'.foldl pickStep e0).score := hstrict e0 (by simp)
          rcases List.mem_cons.mp hy with rfl | hy'
          · exact hbound
          rcases List.mem_cons.mp hy' with rfl | hy''
          · omega
          · exact hstrict y (by simp [hy''])
        · intro y hy
          rcases List.mem_cons.mp hy with rfl | hy'
          · exact hall y (by simp)
          rcases List.mem_cons.mp hy' with rfl | hy''
          · have : e0.score < (es'.foldl pickStep e0).score := hstrict e0 (by simp)
            omega
          · exact hall y (by simp [hy''])

/-- `selectBest` returns the first entry attaining the maximal score. -/
theorem selectBest_first_max (l : List ScoreEntry) (b : ScoreEntry)
    (h : selectBest l = some b) :
    ∃ l1 l2, l = l1 ++ b :: l2 ∧ (∀ x ∈ l1, x.score < b.score) ∧
      ∀ x ∈ l, x.score ≤ b.score := by
  cases l with
  | nil => simp [selectBest] at h
  | cons e es =>
    simp only [selectBest, Option.some.injEq] at h
    subst h
    exact foldl_pick es e

/-- Members of `enumFrom n` carry indices at least `n`. -/
theorem mem_enumFrom_le {α : Type} :
    ∀ (l : List α) (n : Nat) (p : Nat × α), p ∈ l.enumFrom n → n ≤ p.1 := by
  intro l
  induction l with
  | nil => simp
  | cons a r ih =>
    intro n p hp
    rw [List.enumFrom_cons] at hp
    rcases List.mem_cons.mp hp with rfl | hp'
    · exact Nat.le_refl n
    · exact Nat.le_of_succ_le (ih (n + 1) p hp')

/-- Enumeration indices are strictly increasing along the list. -/
theorem pairwise_enumFrom {α : Type} :
    ∀ (l : List α) (n : Nat), (l.enumFrom n).Pairwise (fun a b => a.1 < b.1) := by
  intro l
  induction l with
  | nil => simp
  | cons a r ih =>
    intro n
    rw [List.enumFrom_cons]
    constructor
    · intro p hp
      exact Nat.lt_of_succ_le (mem_enumFrom_le r (n + 1) p hp)
    · exact ih (n + 1)

/-- A produced score entry carries the row index it was scored at. -/
theorem scoreLine_row (lines : List PyStr) (i : Nat) (line : PyStr) (e : ScoreEntry)
    (h : scoreLine lines i line = some e) : e.row = i := by
  simp only [scoreLine] at h
  split at h
  · simp at h
  · split at h
    · simp at h
    · split at h
      · simp at h
      · simp only [Option.some.injEq] at h
        rw [← h]

/-- Candidate entries appear in strictly increasing row order. -/
theorem candidateEntries_pairwise (lines : List PyStr) :
    (candidateEntries lines).Pairwise (fun a b => a.row < b.row) := by
  unfold candidateEntries
  apply List.Pairwise.filterMap (R := fun p q : Nat × PyStr => p.1 < q.1)
  · intro p q hpq x hx y hy
    rw [Option.mem_def] at hx hy
    rw [scoreLine_row lines p.1 p.2 x hx, scoreLine_row lines q.1 q.2 y hy]
    exact hpq
  · rw [List.enum_eq_enumFrom]
    exact pairwise_enumFrom lines 0

/-- C6: when at least one line is eligible, `_detect_header_row` returns the
row of an eligible entry whose score is maximal, and among the entries with
that maximal score it has the lowest row index (first occurrence wins, as
Python's stable descending sort guarantees). -/
theorem detect_header_row_first_max (lines : List PyStr)
    (h : candidateEntries lines ≠ []) :
    ∃ b, selectBest (candidateEntries lines) = some b ∧
      (detect_header_row lines).1 = b.row ∧
      b ∈ candidateEntries lines ∧
      (∀ x ∈ candidateEntries lines, x.score ≤ b.score) ∧
      (∀ x ∈ candidateEntries lines, x.score = b.score → b.row ≤ x.row) := by
  cases hsel : selectBest (candidateEntries lines) with
  | none =>
    exfalso
    cases hce : candidateEntries lines with
    | nil => exact h hce
    | cons e es => rw [hce] at hsel; simp [selectBest] at hsel
  | some b =>
    obtain ⟨l1, l2, hdec, hstrict, hall⟩ := selectBest_first_max _ b hsel
    have hpw := candidateEntries_pairwise lines
    refine ⟨b, rfl, ?_, ?_, hall, ?_⟩
    · simp [detect_header_row, hsel]
    · rw [hdec]
      exact List.mem_append.mpr (Or.inr (List.mem_cons_self _ _))
    · intro x hx heq
      rw [hdec] at hx hpw
      rcases List.mem_append.mp hx with hx1 | hx2
      · have := hstrict x hx1
        omega
      · rcases List.mem_cons.mp hx2 with rfl | hx3
        · exact Nat.le_refl _
        · have hb := (List.pairwise_append.mp hpw).2.1
          have := (List.pairwise_cons.mp hb).1 x hx3
          omega

/-- C6 witness: on the single eligible line `a,b` the selection facts hold. -/
theorem detect_header_row_witness :
    candidateEntries [strN "a,b"] ≠ [] ∧
      ∃ b, selectBest (candidateEntries [strN "a,b"]) = some b ∧
        (detect_header_row [strN "a,b"]).1 = b.row ∧
        b ∈ candidateEntries [strN "a,b"] ∧
        (∀ x ∈ candidateEntries [strN "a,b"], x.score ≤ b.score) ∧
        (∀ x ∈ candidateEntries [strN "a,b"], x.score = b.score → b.row ≤ x.row) :=
  ⟨by decide, detect_header_row_first_max [strN "a,b"] (by decide)⟩
